import Mathlib

/-!
Verification development for the `continuous_bench` repository.

The repository consists of the BENCH (Bayesian EstimatioN of CHange)
documentation and a data-management notebook
(`data_management_for_normalised_by_baseline`).  The notebook's code is
embedded directly.  The BENCH training / inference engine itself (the
`bench` package: `change_model.py`, `diffusion_models.py`, ...) is not part
of the source tree, so its operations are modelled from the specification's
description of the algorithm (conjugate-Gaussian evidence for a linearised
single-parameter-change hypothesis, validity gating of voxels, artifact
serialisation, seeded training).
-/

namespace Bench

/- ================================================================
   Part 1: the data-management notebook (source under src/).
   ================================================================ -/

/-- The filesystem, modelled as the list of existing paths;
`os.path.exists` is membership. -/
def pathExists (fs : List String) (p : String) : Bool := decide (p ∈ fs)

/-- Embedding of the notebook's `create_folder`: if the folder does not
exist, `os.makedirs(folder)` creates it (modelled as appending the path to
the filesystem); the argument is returned in every case. -/
def create_folder (folder : String) (fs : List String) : String × List String :=
  if pathExists fs folder then (folder, fs) else (folder, fs ++ [folder])

/-- Unguarded elementwise float division: dividing by zero never yields a
finite value (±inf for a nonzero numerator, NaN for 0/0), so a zero
denominator is mapped to `none` (non-finite) and any other division to the
exact rational quotient. -/
def fdiv (a b : ℚ) : Option ℚ := if b = 0 then none else some (a / b)

/-- Per-voxel view of `np.repeat(S0_img[..., np.newaxis], n, axis=-1)`:
the voxel's scalar S0 value repeated along the measurement axis. -/
def repeatS0 (s : ℚ) (n : Nat) : List ℚ := List.replicate n s

/-- Elementwise division of two equal-length measurement vectors
(`data_img / S0_rep` restricted to one voxel). -/
def elemDiv (xs ys : List ℚ) : List (Option ℚ) := List.zipWith fdiv xs ys

/-- Per-voxel view of the notebook's normalisation pipeline:
`data07k_img_normalised = data7k_img / S07k`,
`data10k_img_normalised = data10k_img / S010k`, and
`data_normalised = np.concatenate((data07k_img_normalised,
data10k_img_normalised), axis=-1)`. -/
def voxelNormalised (d7 d10 : List ℚ) (s7 s10 : ℚ) : List (Option ℚ) :=
  elemDiv d7 (repeatS0 s7 d7.length) ++ elemDiv d10 (repeatS0 s10 d10.length)

/-- Boolean-mask extraction in C (row-major flattening) order: both
`flatten_dwi[flattened_mask, :]` and
`MaskedArray(img, mask=~combined_mask).compressed()` keep exactly the
entries at `True` positions of the flattened mask, in order. -/
def boolFilter {α : Type} : List Bool → List α → List α
  | true :: ms, x :: xs => x :: boolFilter ms xs
  | false :: ms, _ :: xs => boolFilter ms xs
  | _, _ => []

/-- The number of `True` voxels in a mask. -/
def countTrue (mask : List Bool) : Nat := (mask.filter id).length

/- ================================================================
   Part 2: the BENCH inference core, numeric layer.
   Modelled from the spec: the `bench` package is not in the source
   tree, so the evidence model of §4.4 is embedded from its
   description (scalar summary dimension, Gaussian-conjugate
   change-amount prior with mean 0 and variance σa2).
   ================================================================ -/

/-- Modelled from the spec: the marginal variance of the observed change Δ
under hypothesis H_k, integrating `Δ | a ~ Normal(a·w_k, σ2)` over the
Gaussian change-amount prior `a ~ Normal(0, σa2)`:
`Var(Δ) = σ2 + σa2·w_k²` (w_k is the predicted sensitivity). -/
noncomputable def margVar (σ2 σa2 w : ℝ) : ℝ := σ2 + σa2 * w ^ 2

/-- Modelled from the spec: the unnormalised evidence e_k of candidate k,
the closed-form marginal likelihood `N(Δ; 0, σ2 + σa2·w_k²)` of §4.4
(Gaussian-conjugate amount prior). -/
noncomputable def evidence (σ2 σa2 w Δ : ℝ) : ℝ :=
  Real.exp (-(Δ ^ 2) / (2 * margVar σ2 σa2 w)) /
    Real.sqrt (2 * Real.pi * margVar σ2 σa2 w)

/-- Modelled from the spec: the unnormalised evidences of all candidate
parameters, one per predicted sensitivity. -/
noncomputable def evidences (ws : List ℝ) (σ2 σa2 Δ : ℝ) : List ℝ :=
  ws.map (fun w => evidence σ2 σa2 w Δ)

/-- Modelled from the spec: the normalised posterior `p_k = e_k / Σ_j e_j`. -/
noncomputable def posterior (ws : List ℝ) (σ2 σa2 Δ : ℝ) : List ℝ :=
  (evidences ws σ2 σa2 Δ).map (fun e => e / (evidences ws σ2 σa2 Δ).sum)

/-- Modelled from the spec: the MAP (= posterior mean) of the change amount
under H_k, the mode of the Gaussian posterior over `a`:
`σa2·w·Δ / (σ2 + σa2·w²)`. -/
noncomputable def mapAmount (σ2 σa2 w Δ : ℝ) : ℝ := σa2 * w * Δ / (σ2 + σa2 * w ^ 2)

/-- Shannon entropy of a finite distribution given as a list. -/
noncomputable def shannonEntropy (ps : List ℝ) : ℝ :=
  (ps.map (fun p => -(p * Real.log p))).sum

/- ================================================================
   Part 3: the BENCH inference core, batch / gating layer.
   ================================================================ -/

/-- A stored floating-point value as read from the GLM output volumes:
`none` encodes NaN. -/
abbrev StoredFloat := Option ℚ

/-- Modelled from the spec: one voxel's observation from the GLM stage —
baseline summary vector, delta vector, and the diagonal of the noise
covariance (the GLM stage writes per-summary variances). -/
structure VoxelObs where
  s0 : List ℚ
  delta : List ℚ
  covDiag : List StoredFloat

/-- Modelled from the spec: Σ is valid when it contains no NaN and is
positive definite (for a diagonal covariance: every variance positive). -/
def covValid (cov : List StoredFloat) : Bool :=
  cov.all (fun e => match e with | some v => decide (0 < v) | none => false)

/-- Dot product of two rational vectors. -/
def dot (xs ys : List ℚ) : ℚ := (List.zipWith (fun a b => a * b) xs ys).sum

/-- Modelled from the spec: the MAP change amount for one candidate with
sensitivity vector w under a diagonal covariance — the posterior mean of
the conjugate Gaussian model,
`σa2·(Σ_i w_i Δ_i/σ_i²) / (1 + σa2·(Σ_i w_i²/σ_i²))`. -/
def amountEstimate (σa2 : ℚ) (w delta cov : List ℚ) : ℚ :=
  let prec := (List.zipWith (fun wi si => wi * wi / si) w cov).sum
  let lift := ((w.zip (delta.zip cov)).map (fun p => p.1 * p.2.1 / p.2.2)).sum
  σa2 * lift / (1 + σa2 * prec)

/-- Modelled from the spec: per-voxel inference with validity gating — a
voxel whose Σ contains a NaN or is not positive definite is reported
invalid (`none`) and excluded; any valid voxel yields its per-candidate
change-amount estimates. -/
def inferVoxel (σa2 : ℚ) (ws : List (List ℚ)) (ob : VoxelObs) : Option (List ℚ) :=
  if covValid ob.covDiag then
    some (ws.map (fun w =>
      amountEstimate σa2 w ob.delta (ob.covDiag.map (fun e => e.getD 0))))
  else none

/-- Modelled from the spec: batch inference is an independent map over the
voxels; a single voxel's failure never aborts the batch. -/
def runBatch (σa2 : ℚ) (ws : List (List ℚ)) (batch : List VoxelObs) :
    List (Option (List ℚ)) :=
  batch.map (inferVoxel σa2 ws)

/- ================================================================
   Part 4: the trained artifact — compatibility checking and
   serialisation.  Modelled from the spec (§3, §6).
   ================================================================ -/

/-- A trained regression: a linear map (one coefficient row per output
summary component) plus an intercept vector, predicting the sensitivity
vector from the baseline summary vector. -/
structure Regression where
  rows : List (List ℚ)
  intercept : List ℚ
deriving DecidableEq

/-- A univariate prior specification (mean and variance). -/
structure PriorSpec where
  mean : ℚ
  variance : ℚ
deriving DecidableEq

/-- Modelled from the spec: the Trained Change Model artifact — forward
model identifier, protocol fingerprint (explicit b-value list), summary
dimensionality, and one (parameter name, prior, regression) triple per
candidate. -/
structure Artifact where
  fmId : String
  fingerprint : List ℚ
  summaryDim : Nat
  candidates : List (String × PriorSpec × Regression)
deriving DecidableEq

/-- Predicted sensitivity vector of one regression at a baseline summary
vector. -/
def predictSensitivity (r : Regression) (s0 : List ℚ) : List ℚ :=
  List.zipWith (fun b row => b + dot row s0) r.intercept r.rows

/-- The artifact's predictions at a baseline summary vector: one named
sensitivity prediction per candidate parameter. -/
def predictions (art : Artifact) (s0 : List ℚ) : List (String × List ℚ) :=
  art.candidates.map (fun c => (c.1, predictSensitivity c.2.2 s0))

/-- Modelled from the spec: applying an artifact to an observation first
validates compatibility — the summary dimensionality and the protocol
fingerprint must match exactly — and only then runs inference; a mismatch
is a hard error. -/
def applyModel (art : Artifact) (σa2 : ℚ) (obFingerprint : List ℚ)
    (ob : VoxelObs) : Except String (Option (List ℚ)) :=
  if ob.s0.length = art.summaryDim ∧ obFingerprint = art.fingerprint then
    Except.ok (inferVoxel σa2
      (art.candidates.map (fun c => predictSensitivity c.2.2 ob.s0)) ob)
  else
    Except.error "incompatible protocol"

/-- A serialisation token: the artifact is persisted as a flat token
stream. -/
inductive Tok where
  | nat (v : Nat)
  | rat (v : ℚ)
  | str (v : String)
deriving DecidableEq

/-- Encode a rational list with a length header. -/
def encListRat (l : List ℚ) : List Tok := Tok.nat l.length :: l.map Tok.rat

/-- Encode a list of rational lists with a length header. -/
def encListListRat (l : List (List ℚ)) : List Tok :=
  Tok.nat l.length :: (l.map encListRat).flatten

/-- Encode a regression. -/
def encRegression (r : Regression) : List Tok :=
  encListListRat r.rows ++ encListRat r.intercept

/-- Encode a prior specification. -/
def encPrior (p : PriorSpec) : List Tok := [Tok.rat p.mean, Tok.rat p.variance]

/-- Encode one candidate entry. -/
def encCandidate (c : String × PriorSpec × Regression) : List Tok :=
  Tok.str c.1 :: (encPrior c.2.1 ++ encRegression c.2.2)

/-- Modelled from the spec: serialise the Trained Change Model artifact to
a single flat object. -/
def serializeArtifact (a : Artifact) : List Tok :=
  Tok.str a.fmId :: Tok.nat a.summaryDim :: (encListRat a.fingerprint ++
    (Tok.nat a.candidates.length :: (a.candidates.map encCandidate).flatten))

/-- Decode one natural number token. -/
def decNat : List Tok → Option (Nat × List Tok)
  | Tok.nat v :: ts => some (v, ts)
  | _ => none

/-- Decode one rational token. -/
def decRat : List Tok → Option (ℚ × List Tok)
  | Tok.rat v :: ts => some (v, ts)
  | _ => none

/-- Decode one string token. -/
def decStr : List Tok → Option (String × List Tok)
  | Tok.str v :: ts => some (v, ts)
  | _ => none

/-- Decode exactly n rational tokens. -/
def decRats : Nat → List Tok → Option (List ℚ × List Tok)
  | 0, ts => some ([], ts)
  | n + 1, ts => do
    let (q, ts1) ← decRat ts
    let (l, ts2) ← decRats n ts1
    some (q :: l, ts2)

/-- Decode a length-headed rational list. -/
def decListRat (ts : List Tok) : Option (List ℚ × List Tok) := do
  let (n, ts1) ← decNat ts
  decRats n ts1

/-- Decode exactly n length-headed rational lists. -/
def decListRats : Nat → List Tok → Option (List (List ℚ) × List Tok)
  | 0, ts => some ([], ts)
  | n + 1, ts => do
    let (l, ts1) ← decListRat ts
    let (ls, ts2) ← decListRats n ts1
    some (l :: ls, ts2)

/-- Decode a length-headed list of rational lists. -/
def decListListRat (ts : List Tok) : Option (List (List ℚ) × List Tok) := do
  let (n, ts1) ← decNat ts
  decListRats n ts1

/-- Decode a regression. -/
def decRegression (ts : List Tok) : Option (Regression × List Tok) := do
  let (rows, ts1) ← decListListRat ts
  let (intercept, ts2) ← decListRat ts1
  some (⟨rows, intercept⟩, ts2)

/-- Decode a prior specification. -/
def decPrior (ts : List Tok) : Option (PriorSpec × List Tok) := do
  let (m, ts1) ← decRat ts
  let (v, ts2) ← decRat ts1
  some (⟨m, v⟩, ts2)

/-- Decode one candidate entry. -/
def decCandidate (ts : List Tok) : Option ((String × PriorSpec × Regression) × List Tok) := do
  let (name, ts1) ← decStr ts
  let (p, ts2) ← decPrior ts1
  let (r, ts3) ← decRegression ts2
  some ((name, p, r), ts3)

/-- Decode exactly n candidate entries. -/
def decCandidates : Nat → List Tok → Option (List (String × PriorSpec × Regression) × List Tok)
  | 0, ts => some ([], ts)
  | n + 1, ts => do
    let (c, ts1) ← decCandidate ts
    let (cs, ts2) ← decCandidates n ts1
    some (c :: cs, ts2)

/-- Decode a whole artifact from a token stream. -/
def decodeArtifact (ts : List Tok) : Option (Artifact × List Tok) := do
  let (fm, ts1) ← decStr ts
  let (dim, ts2) ← decNat ts1
  let (fp, ts3) ← decListRat ts2
  let (n, ts4) ← decNat ts3
  let (cs, ts5) ← decCandidates n ts4
  some (⟨fm, fp, dim, cs⟩, ts5)

/-- Modelled from the spec: deserialise a persisted artifact; the whole
stream must be consumed. -/
def deserializeArtifact (ts : List Tok) : Option Artifact :=
  match decodeArtifact ts with
  | some (a, []) => some a
  | _ => none

/- ================================================================
   Part 5: the Change-Model Trainer with an explicitly threaded PRNG.
   Modelled from the spec (§4.3, §8 scenario, §9 design notes).
   ================================================================ -/

/-- Modelled from the spec: an explicit pseudo-random generator instance
threaded through the Trainer (a 32-bit linear congruential generator). -/
def lcg (s : Nat) : Nat := (1664525 * s + 1013904223) % 4294967296

/-- One uniform draw in [0, 1) from a generator state. -/
def unifSample (s : Nat) : ℚ := ((s % 4294967296 : Nat) : ℚ) / 4294967296

/-- The stream of n successive generator states from a seed. -/
def rngStream : Nat → Nat → List Nat
  | 0, _ => []
  | n + 1, s => lcg s :: rngStream n (lcg s)

/-- Modelled from the spec: the §8 scenario forward model — a single scalar
parameter "radius" with measurement = radius², identity summary
reduction. -/
def fwdModel (θ : ℚ) : ℚ := θ ^ 2

/-- Modelled from the spec: N parameter draws from the prior Uniform(1, 2),
sampled with the threaded generator. -/
def trainSamples (seed N : Nat) : List ℚ :=
  (rngStream N seed).map (fun s => 1 + unifSample s)

/-- Modelled from the spec: the empirical sensitivity
`(Simulate(θ + ε) − Simulate(θ)) / ε`. -/
def sensitivityAt (ε θ : ℚ) : ℚ := (fwdModel (θ + ε) - fwdModel θ) / ε

/-- Ordinary-least-squares fit (slope, intercept) of y against x over a
list of (x, y) points. -/
def olsFit (xy : List (ℚ × ℚ)) : ℚ × ℚ :=
  let n : ℚ := xy.length
  let sx := (xy.map (fun p => p.1)).sum
  let sy := (xy.map (fun p => p.2)).sum
  let sxx := (xy.map (fun p => p.1 * p.1)).sum
  let sxy := (xy.map (fun p => p.1 * p.2)).sum
  let denom := n * sxx - sx * sx
  if denom = 0 then (0, if n = 0 then 0 else sy / n)
  else ((n * sxy - sx * sy) / denom, (sy - (n * sxy - sx * sy) / denom * sx) / n)

/-- Modelled from the spec: the Change-Model Trainer for the §8 scenario —
draw N samples from the prior with the seeded generator, compute the
baseline summary S0 = Simulate(θ) and the empirical sensitivity, and fit
the sensitivity regression on S0. -/
def trainChangeModel (seed N : Nat) (ε : ℚ) : ℚ × ℚ :=
  olsFit ((trainSamples seed N).map (fun θ => (fwdModel θ, sensitivityAt ε θ)))

/- ================================================================
   Theorems.
   ================================================================ -/

/-- C8: `create_folder` returns its argument unchanged in every case,
ensures the directory exists afterwards (creating it only when absent),
and is idempotent: a second call leaves the same filesystem state and
return value as the first. -/
theorem create_folder_correct (f : String) (fs : List String) :
    (create_folder f fs).1 = f ∧
    f ∈ (create_folder f fs).2 ∧
    (f ∈ fs → (create_folder f fs).2 = fs) ∧
    create_folder f (create_folder f fs).2 = create_folder f fs := by
  by_cases h : f ∈ fs <;> simp [create_folder, pathExists, h]

/-- C8 witness: creating an already existing folder leaves the filesystem
unchanged. -/
theorem create_folder_correct_witness :
    (create_folder "out" ["out"]).2 = ["out"] :=
  (create_folder_correct "out" ["out"]).2.2.1 (by simp)

/-- Elementwise division by a voxel's repeated S0 value is elementwise
division by that scalar. -/
theorem elemDiv_repeatS0 (xs : List ℚ) (s : ℚ) :
    elemDiv xs (repeatS0 s xs.length) = xs.map (fun x => fdiv x s) := by
  induction xs with
  | nil => rfl
  | cons a t ih => simpa [elemDiv, repeatS0, List.replicate_succ] using ih

/-- C9: a voxel's normalised data vector is the concatenation of the b=7k
measurements divided by its 7k S0 value and the b=10k measurements divided
by its 10k S0 value; the unguarded division yields finite entries exactly
when neither S0 value is zero. -/
theorem voxelNormalised_correct (d7 d10 : List ℚ) (s7 s10 : ℚ) :
    voxelNormalised d7 d10 s7 s10 =
      d7.map (fun x => fdiv x s7) ++ d10.map (fun x => fdiv x s10) ∧
    (s7 ≠ 0 → s10 ≠ 0 → ∀ y ∈ voxelNormalised d7 d10 s7 s10, y.isSome) ∧
    (s7 = 0 → d7 ≠ [] → none ∈ voxelNormalised d7 d10 s7 s10) ∧
    (s10 = 0 → d10 ≠ [] → none ∈ voxelNormalised d7 d10 s7 s10) := by
  have hrw : voxelNormalised d7 d10 s7 s10 =
      d7.map (fun x => fdiv x s7) ++ d10.map (fun x => fdiv x s10) := by
    simp [voxelNormalised, elemDiv_repeatS0]
  refine ⟨hrw, ?_, ?_, ?_⟩
  · intro h7 h10 y hy
    rw [hrw] at hy
    rcases List.mem_append.mp hy with h | h
    · rcases List.mem_map.mp h with ⟨x, _, rfl⟩
      simp [fdiv, h7]
    · rcases List.mem_map.mp h with ⟨x, _, rfl⟩
      simp [fdiv, h10]
  · intro h7 hne
    rw [hrw]
    rcases d7 with _ | ⟨a, t⟩
    · exact absurd rfl hne
    · exact List.mem_append.mpr (Or.inl
        (List.mem_map.mpr ⟨a, List.mem_cons_self a t, by simp [fdiv, h7]⟩))
  · intro h10 hne
    rw [hrw]
    rcases d10 with _ | ⟨a, t⟩
    · exact absurd rfl hne
    · exact List.mem_append.mpr (Or.inr
        (List.mem_map.mpr ⟨a, List.mem_cons_self a t, by simp [fdiv, h10]⟩))

/-- C9 witness: a zero 7k S0 value produces a non-finite (NaN/inf) entry. -/
theorem voxelNormalised_correct_witness :
    none ∈ voxelNormalised [1] [3] 0 4 :=
  (voxelNormalised_correct [1] [3] 0 4).2.2.1 rfl (by simp)

/-- Mask extraction commutes with a per-voxel map: filtering the image of a
voxelwise function equals mapping it over the filtered voxels. -/
theorem boolFilter_map {α β : Type} (f : α → β) (mask : List Bool) :
    ∀ xs : List α, boolFilter mask (xs.map f) = (boolFilter mask xs).map f := by
  induction mask with
  | nil => intro xs; cases xs <;> rfl
  | cons b ms ih =>
    intro xs
    cases xs with
    | nil => cases b <;> rfl
    | cons x t => cases b <;> simp [boolFilter, ih t]

/-- Mask extraction of an equal-length volume keeps exactly one row per
`True` voxel. -/
theorem boolFilter_length {α : Type} (mask : List Bool) :
    ∀ xs : List α, mask.length = xs.length →
      (boolFilter mask xs).length = countTrue mask := by
  induction mask with
  | nil =>
    intro xs h
    cases xs with
    | nil => rfl
    | cons x t => simp at h
  | cons b ms ih =>
    intro xs h
    cases xs with
    | nil => simp at h
    | cons x t =>
      cases b with
      | true => simp [boolFilter, countTrue, List.filter, ih t (by simpa using h)]
      | false => simp [boolFilter, countTrue, List.filter, ih t (by simpa using h)]

/-- C10: the extracted DWI matrix and the compressed cresyl and gallyas SAF
arrays all have first dimension equal to the number of `True` voxels of the
mask, and, being extracted with the same boolean mask in the same
flattening order, row i of each is the image of the same voxel. -/
theorem masked_extraction_aligned {V D : Type} (mask : List Bool) (voxels : List V)
    (h : mask.length = voxels.length)
    (dwiOf : V → D) (cresylOf gallyasOf : V → ℚ) :
    (boolFilter mask (voxels.map dwiOf)).length = countTrue mask ∧
    (boolFilter mask (voxels.map cresylOf)).length = countTrue mask ∧
    (boolFilter mask (voxels.map gallyasOf)).length = countTrue mask ∧
    boolFilter mask (voxels.map dwiOf) = (boolFilter mask voxels).map dwiOf ∧
    boolFilter mask (voxels.map cresylOf) = (boolFilter mask voxels).map cresylOf ∧
    boolFilter mask (voxels.map gallyasOf) = (boolFilter mask voxels).map gallyasOf := by
  refine ⟨?_, ?_, ?_, boolFilter_map dwiOf mask voxels,
    boolFilter_map cresylOf mask voxels, boolFilter_map gallyasOf mask voxels⟩ <;>
    exact boolFilter_length mask _ (by simpa using h)

/-- C10 witness on a concrete two-voxel volume. -/
theorem masked_extraction_aligned_witness :
    (boolFilter [true, false] ([(1 : ℚ), 2].map (fun x => x + 1))).length =
      countTrue [true, false] :=
  (masked_extraction_aligned [true, false] [(1 : ℚ), 2] rfl (fun x => x + 1) id id).1

/-- The marginal variance of a valid voxel is positive. -/
theorem margVar_pos (σ2 σa2 w : ℝ) (hσ2 : 0 < σ2) (hσa2 : 0 ≤ σa2) :
    0 < margVar σ2 σa2 w := by
  have h := mul_nonneg hσa2 (sq_nonneg w)
  unfold margVar
  linarith

/-- Every candidate's evidence is strictly positive for a valid voxel. -/
theorem evidence_pos (σ2 σa2 w Δ : ℝ) (hσ2 : 0 < σ2) (hσa2 : 0 ≤ σa2) :
    0 < evidence σ2 σa2 w Δ := by
  have hV := margVar_pos σ2 σa2 w hσ2 hσa2
  have h2 : 0 < 2 * Real.pi * margVar σ2 σa2 w := by positivity
  exact div_pos (Real.exp_pos _) (Real.sqrt_pos.mpr h2)

/-- A nonempty candidate list gives a positive total evidence. -/
theorem evidences_sum_pos (ws : List ℝ) (σ2 σa2 Δ : ℝ) (hws : ws ≠ [])
    (hσ2 : 0 < σ2) (hσa2 : 0 ≤ σa2) :
    0 < (evidences ws σ2 σa2 Δ).sum := by
  apply List.sum_pos
  · intro x hx
    rcases List.mem_map.mp hx with ⟨w, _, rfl⟩
    exact evidence_pos σ2 σa2 w Δ hσ2 hσa2
  · simpa [evidences] using hws

/-- Dividing every summand by a constant divides the sum. -/
theorem list_sum_map_div (l : List ℝ) (c : ℝ) :
    (l.map (fun x => x / c)).sum = l.sum / c := by
  induction l with
  | nil => simp
  | cons a t ih => simp [ih, add_div]

/-- C1: for every valid voxel the posterior probabilities across candidate
parameters sum to 1, each entry being that candidate's unnormalised
evidence divided by the sum of all candidates' evidences. -/
theorem posterior_sums_to_one (ws : List ℝ) (σ2 σa2 Δ : ℝ)
    (hws : ws ≠ []) (hσ2 : 0 < σ2) (hσa2 : 0 ≤ σa2) :
    (posterior ws σ2 σa2 Δ).sum = 1 ∧
    ∀ i : Nat, (posterior ws σ2 σa2 Δ)[i]? =
      ((evidences ws σ2 σa2 Δ)[i]?).map
        (fun e => e / (evidences ws σ2 σa2 Δ).sum) := by
  have hS := evidences_sum_pos ws σ2 σa2 Δ hws hσ2 hσa2
  constructor
  · rw [posterior, list_sum_map_div]
    exact div_self (ne_of_gt hS)
  · intro i
    simp [posterior]

/-- C1 witness at a concrete single-candidate voxel. -/
theorem posterior_sums_to_one_witness :
    (posterior [1] 1 1 0).sum = 1 :=
  (posterior_sums_to_one [1] 1 1 0 (by simp) one_pos zero_le_one).1

/-- At Δ = 0 the evidence reduces to the normalisation prefactor. -/
theorem evidence_at_zero (σ2 σa2 w : ℝ) :
    evidence σ2 σa2 w 0 = 1 / Real.sqrt (2 * Real.pi * margVar σ2 σa2 w) := by
  simp [evidence]

/-- C4 counterexample: with candidate sensitivities 0 and 1 (σ2 = 1,
σa2 = 99) and Δ = 0, the first posterior probability is 10/11, which is far
from the uniform value 1/2. -/
theorem zero_delta_not_uniform_cex :
    (posterior [0, 1] 1 99 0)[0]? = some (10 / 11) ∧
    ¬ |(10 : ℝ) / 11 - 1 / 2| < 1 / 4 := by
  constructor
  · have hs : Real.sqrt (2 * Real.pi) ≠ 0 := by positivity
    have h1 : margVar 1 99 0 = 1 := by norm_num [margVar]
    have h2 : margVar 1 99 1 = 100 := by norm_num [margVar]
    have h100 : Real.sqrt (2 * Real.pi * 100) = 10 * Real.sqrt (2 * Real.pi) := by
      rw [show (2 : ℝ) * Real.pi * 100 = 10 ^ 2 * (2 * Real.pi) by ring,
        Real.sqrt_mul (by positivity), Real.sqrt_sq (by norm_num)]
    have he0 : evidence 1 99 0 0 = 1 / Real.sqrt (2 * Real.pi) := by
      rw [evidence_at_zero, h1, mul_one]
    have he1 : evidence 1 99 1 0 = 1 / (10 * Real.sqrt (2 * Real.pi)) := by
      rw [evidence_at_zero, h2, h100]
    simp only [posterior, evidences, List.map_cons, List.map_nil, he0, he1,
      List.sum_cons, List.sum_nil, add_zero, List.getElem?_cons_zero]
    rw [Option.some_inj, div_eq_div_iff (by positivity) (by norm_num)]
    field_simp
    ring
  · rw [abs_of_pos (by norm_num)]
    norm_num

/-- C4 (amended): at Δ = 0 every candidate's MAP change amount is exactly
zero; each evidence reduces to the prefactor (2π(σ2 + σa2·w²))^(-1/2)
(so the posterior weights candidates by inverse marginal standard
deviation rather than uniformly); and the posterior is uniform when all
candidates share one sensitivity magnitude. -/
theorem zero_delta_map_and_posterior (ws : List ℝ) (σ2 σa2 : ℝ)
    (hσ2 : 0 < σ2) (hσa2 : 0 ≤ σa2) :
    (∀ w : ℝ, mapAmount σ2 σa2 w 0 = 0) ∧
    evidences ws σ2 σa2 0 =
      ws.map (fun w => 1 / Real.sqrt (2 * Real.pi * margVar σ2 σa2 w)) ∧
    ((∀ w1 ∈ ws, ∀ w2 ∈ ws, w1 ^ 2 = w2 ^ 2) → ws ≠ [] →
      ∀ p ∈ posterior ws σ2 σa2 0, p = 1 / (ws.length : ℝ)) := by
  refine ⟨fun w => by simp [mapAmount], by simp [evidences, evidence_at_zero], ?_⟩
  intro hsq hne p hp
  rcases ws with _ | ⟨w0, rest⟩
  · exact absurd rfl hne
  · have hall : ∀ x ∈ evidences (w0 :: rest) σ2 σa2 0, x = evidence σ2 σa2 w0 0 := by
      intro x hx
      rcases List.mem_map.mp hx with ⟨w, hw, rfl⟩
      have hsq' : w ^ 2 = w0 ^ 2 := hsq w hw w0 (List.mem_cons_self _ _)
      simp [evidence, margVar, hsq']
    have hrep : evidences (w0 :: rest) σ2 σa2 0 =
        List.replicate (evidences (w0 :: rest) σ2 σa2 0).length
          (evidence σ2 σa2 w0 0) :=
      List.eq_replicate_of_mem hall
    have hlen : (evidences (w0 :: rest) σ2 σa2 0).length = (w0 :: rest).length := by
      simp [evidences]
    have hsum : (evidences (w0 :: rest) σ2 σa2 0).sum =
        ((w0 :: rest).length : ℝ) * evidence σ2 σa2 w0 0 := by
      rw [hrep, List.sum_replicate, hlen]
      simp [nsmul_eq_mul]
    rcases List.mem_map.mp hp with ⟨x, hx, rfl⟩
    have hepos : 0 < evidence σ2 σa2 w0 0 := evidence_pos σ2 σa2 w0 0 hσ2 hσa2
    rw [hall x hx, hsum, mul_comm, div_mul_eq_div_div, div_self (ne_of_gt hepos)]

/-- C4 amended-claim witness at a concrete candidate. -/
theorem zero_delta_map_and_posterior_witness :
    mapAmount 1 1 3 0 = 0 :=
  (zero_delta_map_and_posterior [3] 1 1 one_pos zero_le_one).1 3

/-- A single-candidate posterior is the point mass. -/
theorem posterior_single (σ2 σa2 w Δ : ℝ) (h : evidence σ2 σa2 w Δ ≠ 0) :
    posterior [w] σ2 σa2 Δ = [1] := by
  simp [posterior, evidences, div_self h]

/-- The entropy of a point-mass posterior is zero. -/
theorem shannonEntropy_single : shannonEntropy [1] = 0 := by
  simp [shannonEntropy]

/-- C3 counterexample: for a single-candidate model (sensitivity 1,
σ2 = 1, σa2 = 1, Δ = 1) and c = 2, both posteriors are the point mass, so
the entropy with c·Σ is not strictly higher than with Σ. -/
theorem entropy_not_strictly_higher_cex :
    ¬ shannonEntropy (posterior [1] (2 * 1) 1 1) >
      shannonEntropy (posterior [1] 1 1 1) := by
  rw [posterior_single _ _ _ _ (ne_of_gt (evidence_pos _ _ _ _ (by norm_num) (by norm_num))),
    posterior_single _ _ _ _ (ne_of_gt (evidence_pos _ _ _ _ (by norm_num) (by norm_num)))]
  exact lt_irrefl _

/-- C3 (amended): scaling the noise covariance by c > 1 yields a posterior
whose entropy is greater than or equal to — in fact equal to — that under
Σ for a single-candidate model: both posteriors are the point mass and both
entropies are zero, so the strict increase fails. -/
theorem entropy_single_candidate_scaled (w σ2 σa2 Δ c : ℝ)
    (hσ2 : 0 < σ2) (hσa2 : 0 ≤ σa2) (hc : 1 < c) (hΔ : Δ ≠ 0) :
    shannonEntropy (posterior [w] (c * σ2) σa2 Δ) =
      shannonEntropy (posterior [w] σ2 σa2 Δ) ∧
    shannonEntropy (posterior [w] σ2 σa2 Δ) = 0 := by
  have hσ2' : 0 < c * σ2 := mul_pos (lt_trans one_pos hc) hσ2
  rw [posterior_single _ _ _ _ (ne_of_gt (evidence_pos _ _ _ _ hσ2' hσa2)),
    posterior_single _ _ _ _ (ne_of_gt (evidence_pos _ _ _ _ hσ2 hσa2))]
  exact ⟨rfl, shannonEntropy_single⟩

/-- C3 amended-claim witness at concrete inputs. -/
theorem entropy_single_candidate_scaled_witness :
    shannonEntropy (posterior [1] (2 * 1) 1 1) =
      shannonEntropy (posterior [1] 1 1 1) :=
  (entropy_single_candidate_scaled 1 1 1 1 2 one_pos zero_le_one one_lt_two
    one_ne_zero).1

/-- C2: the batch is never aborted — the output keeps one entry per voxel;
a voxel whose covariance contains a NaN or is not positive definite is
reported invalid (`none`) and excluded, while every voxel with a valid
covariance still produces a result. -/
theorem batch_isolation (σa2 : ℚ) (ws : List (List ℚ)) (batch : List VoxelObs)
    (i : Nat) (ob : VoxelObs) (hi : batch[i]? = some ob)
    (hbad : covValid ob.covDiag = false) :
    (runBatch σa2 ws batch).length = batch.length ∧
    (runBatch σa2 ws batch)[i]? = some none ∧
    ∀ j : Nat, ∀ ob' : VoxelObs, batch[j]? = some ob' →
      covValid ob'.covDiag = true →
      ∃ r : List ℚ, (runBatch σa2 ws batch)[j]? = some (some r) := by
  refine ⟨by simp [runBatch], ?_, ?_⟩
  · rw [runBatch, List.getElem?_map, hi, Option.map_some']
    simp [inferVoxel, hbad]
  · intro j ob' hj hok
    refine ⟨ws.map (fun w =>
      amountEstimate σa2 w ob'.delta (ob'.covDiag.map (fun e => e.getD 0))), ?_⟩
    rw [runBatch, List.getElem?_map, hj, Option.map_some']
    simp [inferVoxel, hok]

/-- C2 witness: a concrete two-voxel batch whose first covariance holds a
NaN — the first output is invalid, the batch is complete. -/
theorem batch_isolation_witness :
    (runBatch 1 [[1]] [⟨[1], [1], [none]⟩, ⟨[1], [1], [some 1]⟩]).length = 2 ∧
    (runBatch 1 [[1]] [⟨[1], [1], [none]⟩, ⟨[1], [1], [some 1]⟩])[0]? = some none :=
  ⟨(batch_isolation 1 [[1]] [⟨[1], [1], [none]⟩, ⟨[1], [1], [some 1]⟩] 0
      ⟨[1], [1], [none]⟩ rfl rfl).1,
    (batch_isolation 1 [[1]] [⟨[1], [1], [none]⟩, ⟨[1], [1], [some 1]⟩] 0
      ⟨[1], [1], [none]⟩ rfl rfl).2.1⟩

/-- C6: applying a trained artifact to an observation whose summary
dimensionality or protocol fingerprint does not match exactly is a hard
error raised instead of any inference, and a successful application
guarantees both matched exactly — nothing is silently truncated or
padded. -/
theorem applyModel_compat (art : Artifact) (σa2 : ℚ) (fp : List ℚ)
    (ob : VoxelObs) :
    (ob.s0.length ≠ art.summaryDim ∨ fp ≠ art.fingerprint →
      applyModel art σa2 fp ob = Except.error "incompatible protocol") ∧
    (∀ r, applyModel art σa2 fp ob = Except.ok r →
      ob.s0.length = art.summaryDim ∧ fp = art.fingerprint) := by
  constructor
  · intro h
    have hnot : ¬ (ob.s0.length = art.summaryDim ∧ fp = art.fingerprint) := by
      rcases h with h | h
      · exact fun hok => h hok.1
      · exact fun hok => h hok.2
    rw [applyModel, if_neg hnot]
  · intro r hr
    by_cases h : ob.s0.length = art.summaryDim ∧ fp = art.fingerprint
    · exact h
    · rw [applyModel, if_neg h] at hr
      simp at hr

/-- C6 witness: a concrete dimensionality mismatch is rejected. -/
theorem applyModel_compat_witness :
    applyModel ⟨"stick", [1], 2, []⟩ 1 [1] ⟨[5], [5], [some 1]⟩ =
      Except.error "incompatible protocol" :=
  (applyModel_compat ⟨"stick", [1], 2, []⟩ 1 [1] ⟨[5], [5], [some 1]⟩).1
    (Or.inl (by simp))

/-- Decoding inverts the rational-list body encoder. -/
theorem decRats_enc (l : List ℚ) (rest : List Tok) :
    decRats l.length (l.map Tok.rat ++ rest) = some (l, rest) := by
  induction l with
  | nil => rfl
  | cons a t ih => simp [decRats, decRat, ih]

/-- Decoding inverts the length-headed rational-list encoder. -/
theorem decListRat_enc (l : List ℚ) (rest : List Tok) :
    decListRat (encListRat l ++ rest) = some (l, rest) := by
  simp [decListRat, encListRat, decNat, decRats_enc]

/-- Decoding inverts the body encoder for lists of rational lists. -/
theorem decListRats_enc (ls : List (List ℚ)) (rest : List Tok) :
    decListRats ls.length ((ls.map encListRat).flatten ++ rest) =
      some (ls, rest) := by
  induction ls with
  | nil => rfl
  | cons a t ih => simp [decListRats, List.append_assoc, decListRat_enc, ih]

/-- Decoding inverts the length-headed encoder for lists of rational
lists. -/
theorem decListListRat_enc (ls : List (List ℚ)) (rest : List Tok) :
    decListListRat (encListListRat ls ++ rest) = some (ls, rest) := by
  simp [decListListRat, encListListRat, decNat, decListRats_enc]

/-- Decoding inverts the regression encoder. -/
theorem decRegression_enc (r : Regression) (rest : List Tok) :
    decRegression (encRegression r ++ rest) = some (r, rest) := by
  simp [decRegression, encRegression, List.append_assoc, decListListRat_enc,
    decListRat_enc]

/-- Decoding inverts the prior encoder. -/
theorem decPrior_enc (p : PriorSpec) (rest : List Tok) :
    decPrior (encPrior p ++ rest) = some (p, rest) := by
  simp [decPrior, encPrior, decRat]

/-- Decoding inverts the candidate encoder. -/
theorem decCandidate_enc (c : String × PriorSpec × Regression) (rest : List Tok) :
    decCandidate (encCandidate c ++ rest) = some (c, rest) := by
  simp [decCandidate, encCandidate, decStr, List.append_assoc, decPrior_enc,
    decRegression_enc]

/-- Decoding inverts the candidate-list body encoder. -/
theorem decCandidates_enc (cs : List (String × PriorSpec × Regression))
    (rest : List Tok) :
    decCandidates cs.length ((cs.map encCandidate).flatten ++ rest) =
      some (cs, rest) := by
  induction cs with
  | nil => rfl
  | cons a t ih => simp [decCandidates, List.append_assoc, decCandidate_enc, ih]

/-- Decoding inverts the artifact encoder with any trailing stream. -/
theorem decodeArtifact_enc (a : Artifact) (rest : List Tok) :
    decodeArtifact (serializeArtifact a ++ rest) = some (a, rest) := by
  simp [decodeArtifact, serializeArtifact, decStr, decNat, List.append_assoc,
    decListRat_enc, decCandidates_enc]

/-- C7: a serialised artifact deserialises to exactly the original
artifact, so the restored model's predictions agree with the original's at
every baseline summary vector, for all candidate parameters. -/
theorem artifact_roundtrip (a : Artifact) :
    deserializeArtifact (serializeArtifact a) = some a ∧
    ∀ a' : Artifact, deserializeArtifact (serializeArtifact a) = some a' →
      ∀ s0 : List ℚ, predictions a' s0 = predictions a s0 := by
  have h : decodeArtifact (serializeArtifact a ++ []) = some (a, []) :=
    decodeArtifact_enc a []
  rw [List.append_nil] at h
  constructor
  · rw [deserializeArtifact, h]
  · intro a' ha' s0
    rw [deserializeArtifact, h, Option.some_inj] at ha'
    rw [ha']

/-- C7 witness: round trip of a concrete artifact. -/
theorem artifact_roundtrip_witness :
    deserializeArtifact (serializeArtifact ⟨"stick", [1, 2], 2,
      [("radius", ⟨0, 1⟩, ⟨[[1, 0], [0, 1]], [0, 0]⟩)]⟩) =
      some ⟨"stick", [1, 2], 2,
        [("radius", ⟨0, 1⟩, ⟨[[1, 0], [0, 1]], [0, 0]⟩)]⟩ :=
  (artifact_roundtrip ⟨"stick", [1, 2], 2,
    [("radius", ⟨0, 1⟩, ⟨[[1, 0], [0, 1]], [0, 0]⟩)]⟩).1

/-- C5: the Change-Model Trainer is deterministic given a fixed seed —
equal seeds, sample counts and perturbation sizes give identical
sensitivity regressions — while different seeds can give different
regressions (the sampling-based output is stochastic without a fixed
seed). -/
theorem training_deterministic (s1 s2 N1 N2 : Nat) (ε1 ε2 : ℚ)
    (hs : s1 = s2) (hN : N1 = N2) (hε : ε1 = ε2) :
    trainChangeModel s1 N1 ε1 = trainChangeModel s2 N2 ε2 ∧
    trainChangeModel 1 2 (1 / 100) ≠ trainChangeModel 2 2 (1 / 100) := by
  subst hs
  subst hN
  subst hε
  refine ⟨rfl, ?_⟩
  norm_num [trainChangeModel, trainSamples, rngStream, lcg, unifSample,
    fwdModel, sensitivityAt, olsFit, Prod.ext_iff]

/-- C5 witness: a repeated run with seed 1 agrees with itself and differs
from a run with seed 2. -/
theorem training_deterministic_witness :
    trainChangeModel 1 2 (1 / 100) = trainChangeModel 1 2 (1 / 100) ∧
    trainChangeModel 1 2 (1 / 100) ≠ trainChangeModel 2 2 (1 / 100) :=
  training_deterministic 1 1 2 2 (1 / 100) (1 / 100) rfl rfl rfl

end Bench
